import Mathlib

/-!
Shallow embedding of the `invar` modpack manager (crates `invar`,
`invar-component`, `invar-pack`, `invar-repository`), covering the data
model and the Modrinth component-resolution algorithm.

Rust `HashSet`s are modelled as `List`s; set-level facts are stated as
membership equivalences. Machine integers that never overflow in the
modelled code (file sizes, timestamps) are modelled as `Nat`/`Int`.
-/

namespace Invar

/-- `Loader` from `invar-pack/src/instance/mod.rs`: possible types of
modloaders an `Instance` can depend on. -/
inductive Loader where
  | Minecraft
  | Forge
  | Neoforge
  | Fabric
  | Quilt
  | Other
deriving DecidableEq, Repr

/-- `Category` from `invar-component/src/lib.rs`: possible types
(categories) of components. -/
inductive Category where
  | Mod
  | Resourcepack
  | Shader
  | Datapack
  | Config
deriving DecidableEq, Repr

/-- `Requirement` from `invar-component/src/lib.rs`: possible relations
between a component and its loading environment. -/
inductive Requirement where
  | Unsupported
  | Optional
  | Required
deriving DecidableEq, Repr

/-- Serde deserialization of `Requirement` from a JSON string, per its
derive attributes: `rename_all = "camelCase"`, alias `"incompatible"` on
`Unsupported`, and `#[serde(other)]` on `Required`. -/
def Requirement.deserialize (s : String) : Requirement :=
  if s = "unsupported" ∨ s = "incompatible" then .Unsupported
  else if s = "optional" then .Optional
  else .Required

/-- `Environment` from `invar-repository/src/modrinth/models.rs`. -/
inductive Environment where
  | ClientOnly
  | ServerOnly
  | ClientAndServer
deriving DecidableEq, Repr

/-- `Env` from `invar-component/src/lib.rs`: client- and server-side
requirements for a component. -/
structure Env where
  client : Requirement
  server : Requirement
deriving DecidableEq, Repr

/-- `impl From<Environment> for invar_component::Env` from
`invar-repository/src/modrinth/models.rs`. -/
def Env.from_environment (environment : Environment) : Env :=
  match environment with
  | .ClientOnly => { client := .Required, server := .Unsupported }
  | .ServerOnly => { client := .Unsupported, server := .Required }
  | .ClientAndServer => { client := .Required, server := .Required }

/-- Rust `str::trim`, modelled character-wise: drop whitespace from both
ends. (Whitespace is modelled by `Char.isWhitespace`; the Rust version
uses the full Unicode class, which coincides on the ASCII inputs the
program handles.) -/
def strTrim (s : String) : String :=
  ⟨((s.data.dropWhile Char.isWhitespace).reverse.dropWhile
      Char.isWhitespace).reverse⟩

/-- Rust `str::to_lowercase`, modelled character-wise with the ASCII
lowercase map (the Rust version is Unicode-aware; component ids and
Modrinth slugs are ASCII). -/
def strLowercase (s : String) : String := ⟨s.data.map Char.toLower⟩

/-- `Id` from `invar-component/src/lib.rs`: an identifier of a component.
The `nutype` attribute sanitizes with `trim` then `lowercase`, so
construction from a string goes through `Id.from`. -/
structure Id where
  value : String
deriving DecidableEq, Repr

/-- `Id::from` / `Into<Id> for String`: the nutype sanitizer trims
whitespace and lowercases. -/
def Id.from (s : String) : Id := ⟨strLowercase (strTrim s)⟩

/-- `MinecraftVersion` from `invar-pack/src/instance/version.rs`,
abstracted to its string rendering: the modelled code consumes a
`MinecraftVersion` only through `to_string()` (in
`Version::is_compatible`), so the embedding keeps just that rendering. -/
structure MinecraftVersion where
  render : String
deriving DecidableEq, Repr

/-- `Instance` from `invar-pack/src/instance/mod.rs`. The semver
`loader_version` is abstracted to its string rendering; the
`allowed_foreign_loaders` hash set is modelled as a list. -/
structure Instance where
  minecraft_version : MinecraftVersion
  loader : Loader
  loader_version : String
  allowed_foreign_loaders : List Loader
deriving DecidableEq, Repr

/-- `Instance::new` from `invar-pack/src/instance/mod.rs`: creates an
`Instance` and seeds `allowed_foreign_loaders` based on `loader`. -/
def Instance.new (minecraft_version : MinecraftVersion) (loader : Loader)
    (loader_version : String) : Instance :=
  let allowed_foreign_loaders : List Loader :=
    if loader ≠ Loader.Minecraft then [Loader.Minecraft] else []
  let allowed_foreign_loaders :=
    allowed_foreign_loaders ++
      match loader with
      | .Forge => [Loader.Neoforge]
      | .Neoforge => [Loader.Forge]
      | .Fabric => [Loader.Quilt]
      | .Quilt => [Loader.Fabric]
      | .Other | .Minecraft => []
  { minecraft_version, loader, loader_version, allowed_foreign_loaders }

/-- Modelled from the spec: `Instance::allowed_loaders` is called by
`Version::is_compatible` (`invar-repository/src/modrinth/models.rs`) and
by the empty-candidates diagnostic in `invar/src/main.rs`, but its
definition is not among the provided sources. The spec defines the
effective allowed-loader set of an instance `i` as
`{i.loader} ∪ i.allowed_foreign_loaders`. -/
def Instance.allowed_loaders (i : Instance) : List Loader :=
  i.loader :: i.allowed_foreign_loaders

/-- The pack-setup command path in `invar/src/main.rs` (the
`allowed_foreign_loaders` construction preceding `Pack` creation):
starts from `{Minecraft}`, extends with `{Forge, Neoforge}` minus the
chosen loader when it is Forge or Neoforge, and inserts Fabric when the
chosen loader is Quilt. Hash-set insert/remove are modelled on lists. -/
def pack_setup_foreign_loaders (loader : Loader) : List Loader :=
  let afl : List Loader := [Loader.Minecraft]
  let afl :=
    if loader = Loader.Forge ∨ loader = Loader.Neoforge then
      (afl ++ ([Loader.Forge, Loader.Neoforge].filter
        (fun l => ¬ afl.any (· = l)))).filter (· ≠ loader)
    else afl
  if loader = Loader.Quilt then
    if afl.any (· = Loader.Fabric) then afl else afl ++ [Loader.Fabric]
  else afl

/-- `Hashes` from `invar-component/src/lib.rs`, with the SHA1/SHA512
byte arrays abstracted to their hex renderings (no modelled code
inspects them). -/
structure Hashes where
  sha1 : String
  sha512 : String
deriving DecidableEq, Repr

/-- `Dependency` from `invar-repository/src/modrinth/models.rs`, in the
revision used by `invar/src/main.rs` (where `project_id` is a plain
string). -/
structure Dependency where
  project_id : String
  version_id : Option String
  file_name : Option String
  dependency_type : Requirement
  display_name : Option String
  summary : Option String
deriving DecidableEq, Repr

/-- `File` from `invar-repository/src/modrinth/models.rs`: one
downloadable file of a registry version. The URL is abstracted to its
string rendering. -/
structure File where
  hashes : Hashes
  url : String
  name : String
  size : Nat
deriving DecidableEq, Repr

/-- `Version` from `invar-repository/src/modrinth/models.rs`: a registry
version of a project. Hash sets are modelled as lists and the
`DateTime<Utc>` publication date as an integer timestamp (it is only
used as a sort key). -/
structure Version where
  id : String
  name : String
  project_types : List Category
  game_versions : List String
  loaders : List Loader
  date_published : Int
  environment : Option Environment
  files : List File
  dependencies : List Dependency
deriving DecidableEq, Repr

/-- `Project` from `invar-repository/src/modrinth/models.rs`. -/
structure Project where
  id : String
  slug : String
  name : String
  summary : Option String
  types : List Category
  game_versions : List String
  loaders : List Loader
  versions : List String
deriving DecidableEq, Repr

/-- `Version::is_compatible` from
`invar-repository/src/modrinth/models.rs`. `HashSet::intersection(..).count() >= 1`
is modelled as a shared-member test and `HashSet::contains` as a
membership test. -/
def Version.is_compatible (v : Version) (inst : Instance) : Bool :=
  let version_agnostic_project_types : List Category :=
    [Category.Resourcepack, Category.Shader]
  let is_version_agnostic :=
    v.project_types.any (fun t => version_agnostic_project_types.any (· = t))
  let is_for_correct_version :=
    v.game_versions.any (· = inst.minecraft_version.render)
  let has_unknown_loader := v.loaders.any (· = Loader.Other)
  let has_supported_loader :=
    inst.allowed_loaders.any (fun l => v.loaders.any (· = l))
  (is_version_agnostic || is_for_correct_version) &&
    (has_unknown_loader || has_supported_loader)

/-- `Version::required_dependencies` from
`invar-repository/src/modrinth/models.rs`. -/
def Version.required_dependencies (v : Version) : List Dependency :=
  v.dependencies.filter (fun d => d.dependency_type = Requirement.Required)

/-- `Version::optional_dependencies` from
`invar-repository/src/modrinth/models.rs`. -/
def Version.optional_dependencies (v : Version) : List Dependency :=
  v.dependencies.filter (fun d => d.dependency_type = Requirement.Optional)

/-- `TagInformation` from `invar-component/src/tag.rs`, with the `Tag`
enum abstracted to tag names (no modelled code inspects tags). -/
structure TagInformation where
  main : Option String
  others : List String
deriving DecidableEq, Repr

/-- `TagInformation::untagged` as used by `invar/src/main.rs`: no main
tag and no other tags. -/
def TagInformation.untagged : TagInformation := ⟨none, []⟩

/-- `RemoteComponent` from `invar-component/src/lib.rs`. The download
URL and the file-name `PathBuf` are abstracted to strings (the stored
file name is a single path component — a registry download filename). -/
structure RemoteComponent where
  download_url : String
  file_name : String
  file_size : Nat
  version_id : String
  hashes : Hashes
deriving DecidableEq, Repr

/-- `LocalComponent` as consumed by `Component::runtime_path` in
`invar-component/src/runtime.rs`, which reads
`local_component.entry.runtime_path` and
`local_component.entry.uncategorized_path()`. Modelled from the spec:
the `entry` structure itself is not among the provided sources, so the
two values the modelled code reads are kept as fields. -/
structure LocalComponent where
  entry_runtime_path : Option String
  entry_uncategorized_path : String
deriving DecidableEq, Repr

/-- `Source` from `invar-component/src/lib.rs`. -/
inductive Source where
  | Remote (remote_component : RemoteComponent)
  | Local (local_component : LocalComponent)
deriving DecidableEq, Repr

/-- `Component` from `invar-component/src/lib.rs`. -/
structure Component where
  id : Id
  category : Category
  tags : TagInformation
  environment : Env
  source : Source
deriving DecidableEq, Repr

/-- `RuntimeDirectory` from `invar-component/src/runtime.rs`. -/
inductive RuntimeDirectory where
  | Config
  | Datapacks
  | Mods
  | Resourcepacks
  | Shaderpacks
deriving DecidableEq, Repr

/-- `RuntimePath` from `invar-component/src/runtime.rs`, with the
filename `PathBuf` abstracted to a string. -/
structure RuntimePath where
  directory : Option RuntimeDirectory
  filename : String
deriving DecidableEq, Repr

/-- `RuntimePath::new` from `invar-component/src/runtime.rs`. -/
def RuntimePath.new (directory : RuntimeDirectory) (filename : String) :
    RuntimePath :=
  ⟨some directory, filename⟩

/-- `RuntimePath::new_root` from `invar-component/src/runtime.rs`. -/
def RuntimePath.new_root (filename : String) : RuntimePath :=
  ⟨none, filename⟩

/-- `impl From<Category> for RuntimeDirectory` from
`invar-component/src/runtime.rs`. -/
def RuntimeDirectory.from_category (category : Category) : RuntimeDirectory :=
  match category with
  | .Mod => .Mods
  | .Resourcepack => .Resourcepacks
  | .Shader => .Shaderpacks
  | .Datapack => .Datapacks
  | .Config => .Config

/-- Helper for `pathExtension`: the characters after the last `.` of the
list, or `none` when the list has no `.`. -/
def extAfterLastDot : List Char → Option String
  | [] => none
  | '.' :: rest =>
    match extAfterLastDot rest with
    | some e => some e
    | none => some ⟨rest⟩
  | _ :: rest => extAfterLastDot rest

/-- Rust `Path::extension` on a single normal path component: the
portion after the final `.`, or `none` when there is no embedded `.` or
the name begins with `.` and has no other `.` (and for the special
components `.` and `..`). -/
def pathExtension (name : String) : Option String :=
  if name = "." ∨ name = ".." then none
  else
    match name.data with
    | [] => none
    | c :: rest =>
      if c = '.' then extAfterLastDot rest
      else extAfterLastDot (c :: rest)

/-- `Component::runtime_path` from `invar-component/src/runtime.rs`.
`extension().and_then(OsStr::to_str)` is modelled by `pathExtension`
(the `OsStr::to_str` step never fails on the string model), and
`map_or("zip", ...)` by `Option.getD _ "zip"`. -/
def Component.runtime_path (c : Component) : RuntimePath :=
  let directory := RuntimeDirectory.from_category c.category
  match c.source with
  | .Local local_component =>
    match local_component.entry_runtime_path with
    | some runtime_path_override => RuntimePath.new_root runtime_path_override
    | none => RuntimePath.new directory local_component.entry_uncategorized_path
  | .Remote remote_component =>
    match c.category with
    | .Mod | .Datapack | .Config =>
      RuntimePath.new directory remote_component.file_name
    | .Resourcepack | .Shader =>
      let file_extension := (pathExtension remote_component.file_name).getD "zip"
      let filename := c.id.value ++ "." ++ file_extension
      RuntimePath.new directory filename

/-- The Modrinth registry as seen by `add_component_from_modrinth` in
`invar/src/main.rs`: the two fetch endpoints, with `none` modelling a
failed request. -/
structure ModrinthRepository where
  fetch_versions : String → Option (List Version)
  fetch_project : String → Option Project

/-- The interactive choices made at the two `inquire` prompts of
`add_component_from_modrinth`: which candidate version to select (an
index, taken modulo the candidate count, so a choice is always one of
the listed candidates) and which optional dependencies to tick in the
multi-select. Prompts are modelled as total (never failing). -/
structure UserChoices where
  pick_version : String → Nat
  pick_optional : String → Dependency → Bool

/-- `LocalRepository` from `invar-repository/src/local`, restricted to
what `add_component_from_modrinth` observes: the pack's instance
(`local_repository.pack.instance`) and the installed components
(`local_repository.components()`, modelled as infallible). -/
structure LocalRepository where
  pack_instance : Instance
  components : List Component
deriving DecidableEq, Repr

/-- `LocalRepository::save_component`: persists one component. On the
file-system this writes the component's metadata file; in the model it
appends to the component list. -/
def LocalRepository.save_component (repo : LocalRepository)
    (component : Component) : LocalRepository :=
  { repo with components := repo.components ++ [component] }

/-- Observable effects of one resolver run: registry fetches and
component persists. -/
inductive Event where
  | fetchVersions (id : String)
  | fetchProject (project_id : String)
  | save (component : Component)
deriving DecidableEq, Repr

/-- The ways a resolver run can fail (the `Report` errors and the
documented panic of `add_component_from_modrinth`), plus fuel
exhaustion of the model's recursion bound. -/
inductive RunError where
  | fetchVersionsFailed (id : String)
  | noCompatibleVersions (id : String) (allowed_loaders : List Loader)
  | noFiles (id : String)
  | noProjectTypes (id : String)
  | outOfFuel
deriving DecidableEq, Repr

/-- Sorted insertion, the auxiliary step of `sortBy`. -/
def insertSorted (le : α → α → Bool) (x : α) : List α → List α
  | [] => [x]
  | y :: ys => if le x y then x :: y :: ys else y :: insertSorted le x ys

/-- Insertion sort. It models the source's `sort_unstable_by_key` /
`sorted_unstable_by_key` calls: those only fix the key order,
and nothing modelled here depends on more than membership. -/
def sortBy (le : α → α → Bool) : List α → List α
  | [] => []
  | x :: xs => insertSorted le x (sortBy le xs)

/-- The candidate list of `add_component_from_modrinth`: fetched
versions filtered by `Version::is_compatible`, sorted by
`date_published`, reversed (newest first). -/
def compatibleVersions (fetched : List Version) (inst : Instance) :
    List Version :=
  (sortBy (fun a b => decide (a.date_published ≤ b.date_published))
      (fetched.filter (fun v => v.is_compatible inst))).reverse

/-- The `retain_mut` dependency-name-resolution loop of
`add_component_from_modrinth`: each dependency's project is looked up;
on success its `project_id` is replaced by the project's slug and its
display name and summary are filled in; on failure the dependency is
dropped (logged, not fatal). -/
def resolveDependencyNames (modrinth : ModrinthRepository)
    (dependencies : List Dependency) : List Dependency :=
  dependencies.filterMap (fun dependency =>
    match modrinth.fetch_project dependency.project_id with
    | some project =>
      some { dependency with
              project_id := project.slug
              display_name := some project.name
              summary := project.summary }
    | none => none)

/-- The `fetch_project` events emitted by the name-resolution loop (one
lookup per declared dependency). -/
def dependencyResolutionEvents (dependencies : List Dependency) :
    List Event :=
  dependencies.map (fun dependency => Event.fetchProject dependency.project_id)

/-- The pending-dependency list of `add_component_from_modrinth`:
required dependencies of the (name-resolved) selected version, then the
user-selected optional ones (offered sorted by project id), with those
whose project id equals an installed component's id string removed by
`extract_if`. -/
def pendingDependencies (modrinth : ModrinthRepository) (user : UserChoices)
    (id : String) (installed_components : List Component)
    (selected_version : Version) : List Dependency :=
  let resolved := resolveDependencyNames modrinth selected_version.dependencies
  let required :=
    resolved.filter (fun d => d.dependency_type = Requirement.Required)
  let optional_deps :=
    sortBy (fun a b => decide (a.project_id ≤ b.project_id))
      (resolved.filter (fun d => d.dependency_type = Requirement.Optional))
  let selected := optional_deps.filter (user.pick_optional id)
  (required ++ selected).filter (fun d =>
    ¬ installed_components.any (fun c => c.id.value = d.project_id))

/-- The category persisted by `add_component_from_modrinth`:
`forced_category.unwrap_or(project_types.into_iter().next().wrap_err(..)?)`.
The `unwrap_or` argument is evaluated eagerly, so an empty
`project_types` is an error even under a forced category; otherwise the
forced category, or the version's first declared project type. -/
def resolvedCategory (forced_category : Option Category) (v : Version) :
    Option Category :=
  match v.project_types.head? with
  | none => none
  | some first_type => some (forced_category.getD first_type)

/-- The component built and persisted by `add_component_from_modrinth`
for request `id`, selected version `selected_version`, resolved
`category` and first file `first_file`. -/
def builtComponent (id : String) (selected_version : Version)
    (category : Category) (first_file : File) : Component :=
  let remote_component : RemoteComponent :=
    { download_url := first_file.url
      file_name := first_file.name
      file_size := first_file.size
      version_id := selected_version.id
      hashes := first_file.hashes }
  { id := Id.from id
    category := category
    tags := TagInformation.untagged
    environment :=
      Env.from_environment (selected_version.environment.getD
        (match category with
         | .Resourcepack | .Shader => Environment.ClientOnly
         | .Mod | .Datapack | .Config => Environment.ClientAndServer))
    source := Source.Remote remote_component }

/-- The outcome of one resolver call: the returned `Result`, the
repository state after the call, and the trace of registry fetches and
persists. -/
abbrev RunResult := Except RunError Unit × LocalRepository × List Event

/-- The recursion loop at the end of `add_component_from_modrinth`: each
pending dependency is resolved depth-first by a recursive call
(`recurse`, instantiated with `add_component_from_modrinth` itself on
the same registry, choices and forced category); the first error aborts
the loop (`?`). -/
def resolvePending (recurse : LocalRepository → String → RunResult)
    (repo : LocalRepository) : List Dependency → RunResult
  | [] => (.ok (), repo, [])
  | dependency :: rest =>
    let run := recurse repo dependency.project_id
    match run.1 with
    | .error e => (.error e, run.2.1, run.2.2)
    | .ok _ =>
      let run2 := resolvePending recurse run.2.1 rest
      (run2.1, run2.2.1, run.2.2 ++ run2.2.2)

/-- The tail of `add_component_from_modrinth` (`invar/src/main.rs`) from
the dependency-name-resolution loop onwards, for an already selected
version: resolve dependency names, compute the pending dependencies,
take the selected version's first file (the source `unwrap`s here,
modelled as the `noFiles` error), resolve the category, persist the
component, then recurse depth-first on the pending dependencies. -/
def processVersion (modrinth : ModrinthRepository) (user : UserChoices)
    (recurse : LocalRepository → String → RunResult)
    (repo : LocalRepository) (id : String)
    (forced_category : Option Category) (selected_version : Version) :
    RunResult :=
  let installed_components := repo.components
  let resolution_events :=
    dependencyResolutionEvents selected_version.dependencies
  let pending :=
    pendingDependencies modrinth user id installed_components selected_version
  match selected_version.files.head? with
  | none => (.error (.noFiles id), repo, resolution_events)
  | some first_file =>
    match resolvedCategory forced_category selected_version with
    | none => (.error (.noProjectTypes id), repo, resolution_events)
    | some category =>
      let component := builtComponent id selected_version category first_file
      let repo1 := repo.save_component component
      let run := resolvePending recurse repo1 pending
      (run.1, run.2.1, resolution_events ++ Event.save component :: run.2.2)

/-- `add_component_from_modrinth` from `invar/src/main.rs`. `fuel`
bounds the recursion depth of the model (the source recursion is
bounded by the finite registry); every claim holds for every fuel
value. Recursive calls for pending dependencies pass the same registry,
choices and `forced_category`. -/
def add_component_from_modrinth (fuel : Nat)
    (modrinth : ModrinthRepository) (user : UserChoices)
    (repo : LocalRepository) (id : String)
    (forced_category : Option Category) : RunResult :=
  if repo.components.any (fun component => component.id = Id.from id) then
    (.ok (), repo, [])
  else
    match fuel with
    | 0 => (.error .outOfFuel, repo, [])
    | fuel + 1 =>
      match modrinth.fetch_versions id with
      | none =>
        (.error (.fetchVersionsFailed id), repo, [Event.fetchVersions id])
      | some fetched =>
        let versions := compatibleVersions fetched repo.pack_instance
        match versions with
        | [] =>
          (.error
              (.noCompatibleVersions id repo.pack_instance.allowed_loaders),
            repo, [Event.fetchVersions id])
        | first :: rest =>
          let selected_version :=
            (first :: rest).getD (user.pick_version id % (rest.length + 1))
              first
          let run :=
            processVersion modrinth user
              (fun r i =>
                add_component_from_modrinth fuel modrinth user r i
                  forced_category)
              repo id forced_category selected_version
          (run.1, run.2.1, Event.fetchVersions id :: run.2.2)

deriving instance DecidableEq for Except

/-- The components persisted during a trace, in order. -/
def savedComponents (events : List Event) : List Component :=
  events.filterMap (fun e =>
    match e with
    | .save c => some c
    | _ => none)

/-- The ids of a repository's installed components. -/
def installedIds (repo : LocalRepository) : List Id :=
  repo.components.map Component.id

/-- State/trace relation of one resolver call: the pack instance is
untouched, the final component list is the initial one plus exactly the
persisted components, no id is persisted twice, and every persisted
component's id was not installed at the start of the call. -/
def RunInv (repo repo' : LocalRepository) (events : List Event) : Prop :=
  repo'.pack_instance = repo.pack_instance ∧
  repo'.components = repo.components ++ savedComponents events ∧
  ((savedComponents events).map Component.id).Nodup ∧
  ∀ c ∈ savedComponents events, c.id ∉ installedIds repo

theorem mem_insertSorted {le : α → α → Bool} {x a : α} {l : List α} :
    a ∈ insertSorted le x l ↔ a = x ∨ a ∈ l := by
  induction l with
  | nil => simp [insertSorted]
  | cons y ys ih =>
    simp only [insertSorted]
    split
    · simp [List.mem_cons]
    · simp only [List.mem_cons, ih]
      tauto

theorem mem_sortBy {le : α → α → Bool} {a : α} {l : List α} :
    a ∈ sortBy le l ↔ a ∈ l := by
  induction l with
  | nil => simp [sortBy]
  | cons x xs ih => simp [sortBy, mem_insertSorted, ih]

theorem savedComponents_append (a b : List Event) :
    savedComponents (a ++ b) = savedComponents a ++ savedComponents b := by
  simp [savedComponents, List.filterMap_append]

theorem savedComponents_resolutionEvents (ds : List Dependency) :
    savedComponents (dependencyResolutionEvents ds) = [] := by
  induction ds with
  | nil => simp [savedComponents, dependencyResolutionEvents]
  | cons d rest ih =>
    simp only [dependencyResolutionEvents, List.map_cons] at ih ⊢
    simp [savedComponents]

theorem runInv_of_noSaves (repo : LocalRepository) (events : List Event)
    (h : savedComponents events = []) : RunInv repo repo events :=
  ⟨rfl, by simp [h], by simp [h], by simp [h]⟩

theorem resolvePending_runInv
    (recurse : LocalRepository → String → RunResult)
    (hrec : ∀ r i, RunInv r (recurse r i).2.1 (recurse r i).2.2)
    (pending : List Dependency) :
    ∀ repo : LocalRepository,
      RunInv repo (resolvePending recurse repo pending).2.1
        (resolvePending recurse repo pending).2.2 := by
  induction pending with
  | nil =>
    intro repo
    exact runInv_of_noSaves repo [] rfl
  | cons d rest ih =>
    intro repo
    obtain ⟨hip1, hc1, hn1, hf1⟩ := hrec repo d.project_id
    cases hres : (recurse repo d.project_id).1 with
    | error e =>
      simp only [resolvePending, hres]
      exact ⟨hip1, hc1, hn1, hf1⟩
    | ok u =>
      obtain ⟨hip2, hc2, hn2, hf2⟩ := ih (recurse repo d.project_id).2.1
      simp only [resolvePending, hres]
      refine ⟨hip2.trans hip1, ?_, ?_, ?_⟩
      · rw [savedComponents_append, hc2, hc1, List.append_assoc]
      · rw [savedComponents_append, List.map_append]
        refine hn1.append hn2 ?_
        intro x hx1 hx2
        obtain ⟨c2, hc2m, rfl⟩ := List.mem_map.mp hx2
        have h5 := hf2 c2 hc2m
        rw [installedIds, hc1, List.map_append] at h5
        exact h5 (List.mem_append_right _ hx1)
      · intro c hcm
        rw [savedComponents_append] at hcm
        rcases List.mem_append.mp hcm with h | h
        · exact hf1 c h
        · have h5 := hf2 c h
          rw [installedIds, hc1, List.map_append] at h5
          intro hin
          rw [installedIds] at hin
          exact h5 (List.mem_append_left _ hin)

theorem processVersion_runInv (modrinth : ModrinthRepository)
    (user : UserChoices) (recurse : LocalRepository → String → RunResult)
    (hrec : ∀ r i, RunInv r (recurse r i).2.1 (recurse r i).2.2)
    (repo : LocalRepository) (id : String) (forced_category : Option Category)
    (v : Version) (hg : Id.from id ∉ installedIds repo) :
    RunInv repo
      (processVersion modrinth user recurse repo id forced_category v).2.1
      (processVersion modrinth user recurse repo id forced_category v).2.2 := by
  unfold processVersion
  cases hf : v.files.head? with
  | none =>
    exact runInv_of_noSaves repo _ (savedComponents_resolutionEvents _)
  | some first_file =>
    cases hcat : resolvedCategory forced_category v with
    | none =>
      exact runInv_of_noSaves repo _ (savedComponents_resolutionEvents _)
    | some category =>
      obtain ⟨hip, hc, hn, hfr⟩ :=
        resolvePending_runInv recurse hrec
          (pendingDependencies modrinth user id repo.components v)
          (repo.save_component (builtComponent id v category first_file))
      simp only
      constructor
      · exact hip
      constructor
      · rw [savedComponents_append, savedComponents_resolutionEvents]
        rw [hc]
        simp [LocalRepository.save_component, savedComponents]
      constructor
      · rw [savedComponents_append, savedComponents_resolutionEvents]
        simp only [List.nil_append, savedComponents, List.filterMap_cons]
        simp only [List.map_cons]
        refine List.Nodup.cons ?_ hn
        intro hmem
        obtain ⟨c2, hc2m, hc2id⟩ := List.mem_map.mp hmem
        have := hfr c2 hc2m
        rw [installedIds, LocalRepository.save_component] at this
        simp only [List.map_append, List.map_cons, List.map_nil] at this
        exact this (List.mem_append_right _ (by simp [hc2id]))
      · intro c hcm
        rw [savedComponents_append, savedComponents_resolutionEvents] at hcm
        simp only [List.nil_append, savedComponents, List.filterMap_cons] at hcm
        rcases List.mem_cons.mp hcm with rfl | h
        · exact hg
        · have := hfr c h
          rw [installedIds, LocalRepository.save_component] at this
          simp only [List.map_append] at this
          intro hin
          exact this (List.mem_append_left _ hin)

theorem add_runInv (fuel : Nat) (modrinth : ModrinthRepository)
    (user : UserChoices) (repo : LocalRepository) (id : String)
    (forced_category : Option Category) :
    RunInv repo
      (add_component_from_modrinth fuel modrinth user repo id
        forced_category).2.1
      (add_component_from_modrinth fuel modrinth user repo id
        forced_category).2.2 := by
  induction fuel generalizing repo id with
  | zero =>
    unfold add_component_from_modrinth
    split
    · exact runInv_of_noSaves repo [] rfl
    · exact runInv_of_noSaves repo [] rfl
  | succ fuel ih =>
    unfold add_component_from_modrinth
    by_cases hinst :
        repo.components.any (fun component => component.id = Id.from id) = true
    · simp only [hinst, if_true]
      exact runInv_of_noSaves repo [] rfl
    · simp only [hinst, Bool.false_eq_true, if_false]
      split
      · exact runInv_of_noSaves repo [Event.fetchVersions id] rfl
      · split
        · exact runInv_of_noSaves repo [Event.fetchVersions id] rfl
        · next fetched first rest hvs =>
          have hg : Id.from id ∉ installedIds repo := by
            intro hmem
            obtain ⟨c, hcm, hcid⟩ := List.mem_map.mp hmem
            exact hinst (List.any_eq_true.mpr ⟨c, hcm, by simp [hcid]⟩)
          obtain ⟨hip, hc, hn, hfr⟩ :=
            processVersion_runInv modrinth user
              (fun r i =>
                add_component_from_modrinth fuel modrinth user r i
                  forced_category)
              (fun r i => ih r i) repo id forced_category
              ((first :: rest).getD (user.pick_version id % (rest.length + 1))
                first)
              hg
          exact ⟨hip, by simpa [savedComponents] using hc,
            by simpa [savedComponents] using hn,
            by simpa [savedComponents] using hfr⟩

/-- C1: `is_compatible(v, i)` holds iff (v declares Resourcepack or
Shader among its project types, or v's game versions contain the string
rendering of i's game version) and (v's loaders contain `Loader::Other`,
or v's loaders meet `{i.loader} ∪ i.allowed_foreign_loaders`); in
particular a version declaring zero loaders is never compatible. The
allowed-loader set is the spec-modelled `Instance.allowed_loaders`. -/
theorem is_compatible_characterization (v : Version) (inst : Instance) :
    (v.is_compatible inst = true ↔
      ((Category.Resourcepack ∈ v.project_types
          ∨ Category.Shader ∈ v.project_types)
          ∨ inst.minecraft_version.render ∈ v.game_versions)
        ∧ (Loader.Other ∈ v.loaders
          ∨ ∃ l ∈ v.loaders,
              l = inst.loader ∨ l ∈ inst.allowed_foreign_loaders))
    ∧ (v.loaders = [] → v.is_compatible inst = false) := by
  constructor
  · unfold Version.is_compatible Instance.allowed_loaders
    simp only [Bool.and_eq_true, Bool.or_eq_true, List.any_eq_true,
      decide_eq_true_eq, List.any_cons, List.any_nil, Bool.or_false,
      List.mem_cons]
    constructor
    · rintro ⟨h1, h2⟩
      constructor
      · rcases h1 with ⟨t, ht, rfl | rfl⟩ | ⟨g, hg, rfl⟩
        · exact Or.inl (Or.inl ht)
        · exact Or.inl (Or.inr ht)
        · exact Or.inr hg
      · rcases h2 with ⟨l, hl, rfl⟩ | ⟨l, hl, hleq⟩ | ⟨x, hx, l', hl', hleq⟩
        · exact Or.inl hl
        · exact Or.inr ⟨l, hl, Or.inl hleq⟩
        · exact Or.inr ⟨l', hl', Or.inr (hleq ▸ hx)⟩
    · rintro ⟨h1, h2⟩
      constructor
      · rcases h1 with (h | h) | h
        · exact Or.inl ⟨_, h, Or.inl rfl⟩
        · exact Or.inl ⟨_, h, Or.inr rfl⟩
        · exact Or.inr ⟨_, h, rfl⟩
      · rcases h2 with h | ⟨l, hl, hleq | h⟩
        · exact Or.inl ⟨_, h, rfl⟩
        · exact Or.inr (Or.inl ⟨l, hl, hleq⟩)
        · exact Or.inr (Or.inr ⟨_, h, l, hl, rfl⟩)
  · intro h
    simp [Version.is_compatible, h]

/-- A pack instance used by the witness theorems: a Fabric 1.20.1
instance as created by `Instance::new`. -/
def wInstance : Instance := Instance.new ⟨"1.20.1"⟩ Loader.Fabric "0.15.11"

/-- A registry version declaring zero loaders, used by the C1 witness. -/
def wNoLoaderVersion : Version :=
  ⟨"v0", "NoLoader 1.0", [Category.Mod], ["1.20.1"], [], 0, none, [], []⟩

/-- C1 witness: the characterization applied at a concrete version with
zero loaders shows it incompatible with a concrete instance. -/
theorem is_compatible_characterization_witness :
    Version.is_compatible wNoLoaderVersion wInstance = false :=
  (is_compatible_characterization wNoLoaderVersion wInstance).2 rfl

/-- C9: deserializing a dependency type that is none of "unsupported",
"incompatible", "optional" yields `Requirement::Required` via the
`serde(other)` fallback, so such a dependency (e.g. "embedded") counts
as required — it is in `required_dependencies` and not in
`optional_dependencies` of any version listing it. -/
theorem requirement_other_fallback (s : String)
    (h1 : s ≠ "unsupported") (h2 : s ≠ "incompatible") (h3 : s ≠ "optional") :
    Requirement.deserialize s = Requirement.Required
    ∧ ∀ (v : Version) (d : Dependency), d ∈ v.dependencies →
        d.dependency_type = Requirement.deserialize s →
        d ∈ v.required_dependencies ∧ d ∉ v.optional_dependencies := by
  have hval : Requirement.deserialize s = Requirement.Required := by
    unfold Requirement.deserialize
    rw [if_neg, if_neg]
    · exact h3
    · rintro (h | h)
      · exact h1 h
      · exact h2 h
  refine ⟨hval, fun v d hmem hty => ?_⟩
  rw [hval] at hty
  constructor
  · exact List.mem_filter.mpr ⟨hmem, by simp [hty]⟩
  · intro hopt
    have := (List.mem_filter.mp hopt).2
    simp [hty] at this

/-- A dependency of the unknown kind "embedded", used by the C9
witness. -/
def wEmbeddedDep : Dependency :=
  ⟨"dep-embedded", none, none, Requirement.deserialize "embedded", none, none⟩

/-- A version declaring only the "embedded"-kind dependency, used by
the C9 witness. -/
def wEmbeddedVersion : Version :=
  ⟨"v9", "Embedded 1.0", [Category.Mod], ["1.20.1"], [Loader.Fabric], 0,
    none, [], [wEmbeddedDep]⟩

/-- C9 witness: at the concrete unknown kind "embedded", the fallback
yields `Required` and the concrete dependency is required, not
optional. -/
theorem requirement_other_fallback_witness :
    Requirement.deserialize "embedded" = Requirement.Required
    ∧ wEmbeddedDep ∈ wEmbeddedVersion.required_dependencies
    ∧ wEmbeddedDep ∉ wEmbeddedVersion.optional_dependencies := by
  have h := requirement_other_fallback "embedded" (by decide) (by decide)
    (by decide)
  have h2 := h.2 wEmbeddedVersion wEmbeddedDep (by decide) rfl
  exact ⟨h.1, h2.1, h2.2⟩

/-- C10: a remote component of category Resourcepack or Shader lives at
the category's runtime directory under `<id>.<ext>`, `<ext>` being the
downloaded file name's extension or `"zip"` when it has none; a remote
Mod, Datapack or Config keeps the original download file name under the
category's runtime directory. -/
theorem runtime_path_remote (c : Component) (rc : RemoteComponent)
    (hsrc : c.source = Source.Remote rc) :
    ((c.category = Category.Resourcepack ∨ c.category = Category.Shader) →
      c.runtime_path =
        RuntimePath.new (RuntimeDirectory.from_category c.category)
          (c.id.value ++ "." ++ (pathExtension rc.file_name).getD "zip"))
    ∧ ((c.category = Category.Mod ∨ c.category = Category.Datapack
          ∨ c.category = Category.Config) →
      c.runtime_path =
        RuntimePath.new (RuntimeDirectory.from_category c.category)
          rc.file_name) := by
  constructor
  · rintro (hcat | hcat) <;>
      simp [Component.runtime_path, hsrc, hcat]
  · rintro (hcat | hcat | hcat) <;>
      simp [Component.runtime_path, hsrc, hcat]

/-- A concrete remote shader component used by the C10 witness; its
download file name `"shader-pack.3.zip.old"` has extension `"old"`. -/
def wShaderComponent : Component :=
  { id := Id.from "Complementary "
    category := Category.Shader
    tags := TagInformation.untagged
    environment := ⟨Requirement.Required, Requirement.Unsupported⟩
    source := Source.Remote
      ⟨"https://cdn.example/s", "shader-pack.3.zip.old", 7, "vS", ⟨"01", "02"⟩⟩ }

/-- A concrete remote mod component used by the C10 witness. -/
def wModComponent : Component :=
  { id := Id.from "sodium"
    category := Category.Mod
    tags := TagInformation.untagged
    environment := ⟨Requirement.Required, Requirement.Required⟩
    source := Source.Remote
      ⟨"https://cdn.example/m", "sodium-fabric-1.20.1.jar", 9, "vM",
        ⟨"03", "04"⟩⟩ }

/-- C10 witness: concrete runtime paths — the shader is renamed to
`complementary.old` under `shaderpacks`, the mod keeps its file name
under `mods`. -/
theorem runtime_path_remote_witness :
    wShaderComponent.runtime_path =
      RuntimePath.new RuntimeDirectory.Shaderpacks "complementary.old"
    ∧ wModComponent.runtime_path =
      RuntimePath.new RuntimeDirectory.Mods "sodium-fabric-1.20.1.jar" := by
  constructor
  · have h := (runtime_path_remote wShaderComponent
      ⟨"https://cdn.example/s", "shader-pack.3.zip.old", 7, "vS", ⟨"01", "02"⟩⟩
      rfl).1 (Or.inr rfl)
    rw [h]
    decide
  · exact (runtime_path_remote wModComponent
      ⟨"https://cdn.example/m", "sodium-fabric-1.20.1.jar", 9, "vM",
        ⟨"03", "04"⟩⟩ rfl).2 (Or.inl rfl)

/-- The fixed loader-compatibility table exactly as the spec words it:
Neoforge for Forge, Forge for Neoforge, Quilt for Fabric, Fabric for
Quilt, and nothing otherwise. Stated for comparison with the code's
seeding. -/
def specForeignLoaderTable : Loader → List Loader
  | .Forge => [Loader.Neoforge]
  | .Neoforge => [Loader.Forge]
  | .Fabric => [Loader.Quilt]
  | .Quilt => [Loader.Fabric]
  | .Minecraft | .Other => []

/-- C7 counterexample: `Instance::new` for a Forge instance also puts
`Loader::Minecraft` into `allowed_foreign_loaders`, which the spec's
table does not contain; the pack-setup path gives a vanilla instance
the set `{Minecraft}` — its own loader — and gives a Fabric instance no
Quilt allowance. -/
theorem foreign_loader_seeding_counterexample :
    Loader.Minecraft ∈
        (Instance.new ⟨"1.20.1"⟩ Loader.Forge
          "47.2.0").allowed_foreign_loaders
      ∧ Loader.Minecraft ∉ specForeignLoaderTable Loader.Forge
      ∧ Loader.Minecraft ∈ pack_setup_foreign_loaders Loader.Minecraft
      ∧ Loader.Quilt ∉ pack_setup_foreign_loaders Loader.Fabric
      ∧ Loader.Quilt ∈ specForeignLoaderTable Loader.Fabric := by
  decide

/-- C7 amended: `Instance::new` seeds `allowed_foreign_loaders` with
the spec's table plus `Loader::Minecraft` whenever the chosen loader is
not Minecraft, and its result never contains the chosen loader. The
pack-setup command path instead seeds `{Minecraft}` plus Neoforge for
Forge, Forge for Neoforge and Fabric for Quilt — no Quilt allowance for
Fabric — and contains the chosen loader exactly when that loader is
Minecraft. -/
theorem allowed_foreign_loaders_seeding (mc : MinecraftVersion)
    (loader : Loader) (lv : String) :
    (∀ l, l ∈ (Instance.new mc loader lv).allowed_foreign_loaders ↔
        (l ∈ specForeignLoaderTable loader
          ∨ (loader ≠ Loader.Minecraft ∧ l = Loader.Minecraft)))
    ∧ ((Instance.new mc loader lv).allowed_foreign_loaders.any
        (· = loader)) = false
    ∧ (∀ l, l ∈ pack_setup_foreign_loaders loader ↔
        (l = Loader.Minecraft
          ∨ (loader = Loader.Forge ∧ l = Loader.Neoforge)
          ∨ (loader = Loader.Neoforge ∧ l = Loader.Forge)
          ∨ (loader = Loader.Quilt ∧ l = Loader.Fabric)))
    ∧ ((pack_setup_foreign_loaders loader).any (· = loader)
        = decide (loader = Loader.Minecraft)) := by
  cases loader <;>
    exact ⟨fun l => by cases l <;>
        simp [Instance.new, specForeignLoaderTable],
      by simp [Instance.new],
      fun l => by cases l <;> simp [pack_setup_foreign_loaders],
      by simp [pack_setup_foreign_loaders]⟩

/-- C7 auxiliary witness: the amended seeding statement applied at a
concrete Neoforge instance. -/
theorem allowed_foreign_loaders_seeding_witness :
    Loader.Forge ∈
      (Instance.new ⟨"1.20.4"⟩ Loader.Neoforge
        "20.4.80").allowed_foreign_loaders :=
  ((allowed_foreign_loaders_seeding ⟨"1.20.4"⟩ Loader.Neoforge
      "20.4.80").1 Loader.Forge).mpr (Or.inl (by decide))

theorem builtComponent_id (id : String) (v : Version) (category : Category)
    (first_file : File) :
    (builtComponent id v category first_file).id = Id.from id := rfl

/-- The short-circuit of `add_component_from_modrinth`: when the
requested id (after Id sanitization) is already installed, the call is
a no-op returning success with an empty trace. -/
theorem add_installed_noop (fuel : Nat) (m : ModrinthRepository)
    (u : UserChoices) (repo : LocalRepository) (id : String)
    (fc : Option Category) (h : Id.from id ∈ installedIds repo) :
    add_component_from_modrinth fuel m u repo id fc = (.ok (), repo, []) := by
  rw [installedIds] at h
  obtain ⟨c, hcm, hcid⟩ := List.mem_map.mp h
  have hcond :
      repo.components.any (fun component => component.id = Id.from id)
        = true :=
    List.any_eq_true.mpr ⟨c, hcm, by simp [hcid]⟩
  unfold add_component_from_modrinth
  simp [hcond]

theorem processVersion_ok_mem (m : ModrinthRepository) (u : UserChoices)
    (recurse : LocalRepository → String → RunResult)
    (hrec : ∀ r i, RunInv r (recurse r i).2.1 (recurse r i).2.2)
    (repo : LocalRepository) (id : String) (fc : Option Category)
    (v : Version) :
    (processVersion m u recurse repo id fc v).1 = .ok () →
    Id.from id ∈ installedIds (processVersion m u recurse repo id fc v).2.1 := by
  unfold processVersion
  split
  · intro h
    exact absurd h (by simp)
  · next first_file hfile =>
    split
    · intro h
      exact absurd h (by simp)
    · next category hcat =>
      intro _
      obtain ⟨hip, hc, hn, hfr⟩ :=
        resolvePending_runInv recurse hrec
          (pendingDependencies m u id repo.components v)
          (repo.save_component (builtComponent id v category first_file))
      rw [installedIds, hc]
      refine List.mem_map.mpr
        ⟨builtComponent id v category first_file, ?_,
          builtComponent_id id v category first_file⟩
      rw [LocalRepository.save_component]
      exact List.mem_append_left _
        (List.mem_append_right _ (List.mem_singleton_self _))

theorem add_zero_fuel (m : ModrinthRepository) (u : UserChoices)
    (repo : LocalRepository) (id : String) (fc : Option Category)
    (hni : repo.components.any (fun component => component.id = Id.from id)
      = false) :
    add_component_from_modrinth 0 m u repo id fc =
      (.error .outOfFuel, repo, []) := by
  unfold add_component_from_modrinth
  simp [hni]

theorem add_fetch_failed (fuel : Nat) (m : ModrinthRepository)
    (u : UserChoices) (repo : LocalRepository) (id : String)
    (fc : Option Category)
    (hni : repo.components.any (fun component => component.id = Id.from id)
      = false)
    (hfv : m.fetch_versions id = none) :
    add_component_from_modrinth (fuel + 1) m u repo id fc =
      (.error (.fetchVersionsFailed id), repo, [Event.fetchVersions id]) := by
  unfold add_component_from_modrinth
  simp [hni, hfv]

theorem add_no_compatible (fuel : Nat) (m : ModrinthRepository)
    (u : UserChoices) (repo : LocalRepository) (id : String)
    (fc : Option Category) (fetched : List Version)
    (hni : repo.components.any (fun component => component.id = Id.from id)
      = false)
    (hfv : m.fetch_versions id = some fetched)
    (hcv : compatibleVersions fetched repo.pack_instance = []) :
    add_component_from_modrinth (fuel + 1) m u repo id fc =
      (.error (.noCompatibleVersions id repo.pack_instance.allowed_loaders),
        repo, [Event.fetchVersions id]) := by
  unfold add_component_from_modrinth
  simp [hni, hfv, hcv]

theorem add_main_step (fuel : Nat) (m : ModrinthRepository)
    (u : UserChoices) (repo : LocalRepository) (id : String)
    (fc : Option Category) (fetched : List Version) (first : Version)
    (rest : List Version)
    (hni : repo.components.any (fun component => component.id = Id.from id)
      = false)
    (hfv : m.fetch_versions id = some fetched)
    (hvs : compatibleVersions fetched repo.pack_instance = first :: rest) :
    add_component_from_modrinth (fuel + 1) m u repo id fc =
      ((processVersion m u
          (fun r i => add_component_from_modrinth fuel m u r i fc)
          repo id fc
          ((first :: rest).getD (u.pick_version id % (rest.length + 1))
            first)).1,
        (processVersion m u
          (fun r i => add_component_from_modrinth fuel m u r i fc)
          repo id fc
          ((first :: rest).getD (u.pick_version id % (rest.length + 1))
            first)).2.1,
        Event.fetchVersions id ::
          (processVersion m u
            (fun r i => add_component_from_modrinth fuel m u r i fc)
            repo id fc
            ((first :: rest).getD (u.pick_version id % (rest.length + 1))
              first)).2.2) := by
  rw [add_component_from_modrinth.eq_def]
  simp [hni, hfv, hvs]

/-- A successful `add_component_from_modrinth` call always leaves the
requested id installed. -/
theorem add_ok_mem (fuel : Nat) (m : ModrinthRepository) (u : UserChoices)
    (repo : LocalRepository) (id : String) (fc : Option Category) :
    (add_component_from_modrinth fuel m u repo id fc).1 = .ok () →
    Id.from id ∈
      installedIds (add_component_from_modrinth fuel m u repo id fc).2.1 := by
  intro hok
  by_cases hcond :
      repo.components.any (fun component => component.id = Id.from id) = true
  · obtain ⟨c, hcm, hcid⟩ := List.any_eq_true.mp hcond
    have hmem : Id.from id ∈ installedIds repo :=
      List.mem_map.mpr ⟨c, hcm, by simpa using hcid⟩
    rw [add_installed_noop fuel m u repo id fc hmem]
    exact hmem
  · have hni :
        repo.components.any (fun component => component.id = Id.from id)
          = false := by
      simpa using hcond
    cases fuel with
    | zero =>
      rw [add_zero_fuel m u repo id fc hni] at hok
      exact absurd hok (by simp)
    | succ fuel2 =>
      cases hfv : m.fetch_versions id with
      | none =>
        rw [add_fetch_failed fuel2 m u repo id fc hni hfv] at hok
        exact absurd hok (by simp)
      | some fetched =>
        cases hvs : compatibleVersions fetched repo.pack_instance with
        | nil =>
          rw [add_no_compatible fuel2 m u repo id fc fetched hni hfv hvs]
            at hok
          exact absurd hok (by simp)
        | cons first rest =>
          rw [add_main_step fuel2 m u repo id fc fetched first rest hni hfv
            hvs] at hok ⊢
          exact processVersion_ok_mem m u _
            (fun r i => add_runInv fuel2 m u r i fc) repo id fc _ hok

/-- C5: when the requested id is not installed and the fetched versions
all fail the compatibility filter, the call errors with a diagnostic
carrying the instance's effective allowed-loader set, persists nothing
and leaves the repository unchanged. (`Instance.allowed_loaders` is the
spec-modelled effective set.) -/
theorem no_compatible_versions_error (fuel : Nat) (m : ModrinthRepository)
    (u : UserChoices) (repo : LocalRepository) (id : String)
    (fc : Option Category) (fetched : List Version)
    (hni : repo.components.any (fun component => component.id = Id.from id)
      = false)
    (hfv : m.fetch_versions id = some fetched)
    (hempty :
      fetched.filter (fun v => v.is_compatible repo.pack_instance) = [])
    (hfuel : fuel ≠ 0) :
    add_component_from_modrinth fuel m u repo id fc =
      (.error (.noCompatibleVersions id repo.pack_instance.allowed_loaders),
        repo, [Event.fetchVersions id]) := by
  obtain ⟨n, rfl⟩ : ∃ n, fuel = n + 1 := ⟨fuel - 1, by omega⟩
  have hcv : compatibleVersions fetched repo.pack_instance = [] := by
    simp [compatibleVersions, hempty, sortBy]
  unfold add_component_from_modrinth
  simp [hni, hfv, hcv]

/-- C5 witness fixture: a version compatible only with Forge 1.19.2,
hence incompatible with the Fabric 1.20.1 witness instance. -/
def wIncompatVersion : Version :=
  ⟨"vI", "Old 1.0", [Category.Mod], ["1.19.2"], [Loader.Forge], 1, none,
    [], []⟩

/-- Witness fixture: the download file of the "lithium" version. -/
def wFileB : File :=
  ⟨⟨"05", "06"⟩, "https://cdn.example/lithium.jar",
    "lithium-fabric-1.20.1.jar", 5⟩

/-- Witness fixture: the registry version of "lithium" (no
dependencies). -/
def wVersionB : Version :=
  ⟨"vB", "Lithium 0.11", [Category.Mod], ["1.20.1"], [Loader.Fabric], 3,
    none, [wFileB], []⟩

/-- Witness fixture: the raw dependency of "sodium" on project id
"pLith" (resolved to slug "lithium"). -/
def wDepA : Dependency :=
  ⟨"pLith", none, none, Requirement.Required, none, none⟩

/-- Witness fixture: the project record for "pLith"/"lithium". -/
def wProjectLith : Project :=
  ⟨"pLith", "lithium", "Lithium", some "optimization mod", [Category.Mod],
    ["1.20.1"], [Loader.Fabric], ["vB"]⟩

/-- Witness fixture: the download file of the "sodium" version. -/
def wFileA : File :=
  ⟨⟨"07", "08"⟩, "https://cdn.example/sodium.jar",
    "sodium-fabric-1.20.1.jar", 9⟩

/-- Witness fixture: the registry version of "sodium", requiring
"pLith". -/
def wVersionA : Version :=
  ⟨"vA", "Sodium 0.5", [Category.Mod], ["1.20.1"], [Loader.Fabric], 10,
    none, [wFileA], [wDepA]⟩

/-- Witness fixture: a small concrete Modrinth registry. -/
def wReg : ModrinthRepository :=
  ⟨fun i =>
      if i = "sodium" then some [wVersionA]
      else if i = "lithium" then some [wVersionB]
      else if i = "incompat" then some [wIncompatVersion]
      else none,
    fun p => if p = "pLith" then some wProjectLith else none⟩

/-- Witness fixture: user choices that pick the first candidate and
tick every optional dependency. -/
def wUser : UserChoices := ⟨fun _ => 0, fun _ _ => true⟩

/-- Witness fixture: a fresh repository on the witness instance. -/
def wRepoFresh : LocalRepository := ⟨wInstance, []⟩

/-- Witness fixture: a repository that already has "sodium"
installed. -/
def wRepoInstalled : LocalRepository := ⟨wInstance, [wModComponent]⟩

/-- C5 witness: requesting "incompat" against the Fabric 1.20.1
instance errors with the allowed-loader diagnostic and an unchanged
repository. -/
theorem no_compatible_versions_error_witness :
    add_component_from_modrinth 1 wReg wUser wRepoFresh "incompat" none =
      (.error
          (.noCompatibleVersions "incompat"
            wRepoFresh.pack_instance.allowed_loaders),
        wRepoFresh, [Event.fetchVersions "incompat"]) :=
  no_compatible_versions_error 1 wReg wUser wRepoFresh "incompat" none
    [wIncompatVersion] (by decide) (by decide) (by decide) (by decide)

/-- C2: if the requested id (by exact sanitized-Id match) is already
installed, the call returns success immediately, fetches nothing (empty
trace) and leaves the repository unchanged; consequently, after any
successful call, an immediately repeated call for the same id — with
any fuel, choices or forced category — is a pure no-op returning
success. -/
theorem add_component_idempotent (fuel fuel2 : Nat)
    (m : ModrinthRepository) (u u2 : UserChoices) (repo : LocalRepository)
    (id : String) (fc fc2 : Option Category) :
    ((∃ c ∈ repo.components, c.id = Id.from id) →
      add_component_from_modrinth fuel m u repo id fc = (.ok (), repo, []))
    ∧ ((add_component_from_modrinth fuel m u repo id fc).1 = .ok () →
      add_component_from_modrinth fuel2 m u2
          (add_component_from_modrinth fuel m u repo id fc).2.1 id fc2 =
        (.ok (), (add_component_from_modrinth fuel m u repo id fc).2.1,
          [])) := by
  constructor
  · rintro ⟨c, hcm, hcid⟩
    exact add_installed_noop fuel m u repo id fc
      (List.mem_map.mpr ⟨c, hcm, hcid⟩)
  · intro hok
    exact add_installed_noop fuel2 m u2 _ id fc2
      (add_ok_mem fuel m u repo id fc hok)

/-- C2 witness: with "sodium" already installed the call is a no-op,
and right after a successful fresh installation of "sodium" a second
call is a no-op returning success. -/
theorem add_component_idempotent_witness :
    add_component_from_modrinth 1 wReg wUser wRepoInstalled "sodium" none =
      (.ok (), wRepoInstalled, [])
    ∧ add_component_from_modrinth 1 wReg wUser
        (add_component_from_modrinth 2 wReg wUser wRepoFresh "sodium"
          none).2.1 "sodium" none =
      (.ok (),
        (add_component_from_modrinth 2 wReg wUser wRepoFresh "sodium"
          none).2.1, []) :=
  ⟨(add_component_idempotent 1 1 wReg wUser wUser wRepoInstalled "sodium"
      none none).1 ⟨wModComponent, by decide, by decide⟩,
    (add_component_idempotent 2 1 wReg wUser wUser wRepoFresh "sodium"
      none none).2 (by decide)⟩

theorem savedComponents_save_cons (c : Component) (tr : List Event) :
    savedComponents (Event.save c :: tr) = c :: savedComponents tr := rfl

/-- C3: membership in the pending list equals "required or
user-selected optional dependency of the (name-resolved) selected
version, and not matching any installed component's id"; and across one
whole invocation tree no id is persisted twice. -/
theorem pending_dependency_partition (m : ModrinthRepository)
    (u : UserChoices) (id : String) (installed : List Component)
    (v : Version) :
    (∀ d, d ∈ pendingDependencies m u id installed v ↔
      ((d ∈ Version.required_dependencies
            { v with dependencies := resolveDependencyNames m v.dependencies }
          ∨ (d ∈ Version.optional_dependencies
                { v with
                  dependencies := resolveDependencyNames m v.dependencies }
              ∧ u.pick_optional id d = true))
        ∧ ∀ c ∈ installed, c.id.value ≠ d.project_id))
    ∧ ∀ (fuel : Nat) (repo : LocalRepository) (fc : Option Category),
        ((savedComponents
            (add_component_from_modrinth fuel m u repo id fc).2.2).map
          Component.id).Nodup := by
  constructor
  · intro d
    unfold pendingDependencies Version.required_dependencies
      Version.optional_dependencies
    simp only [List.mem_filter, List.mem_append, mem_sortBy,
      decide_eq_true_eq, List.any_eq_true, not_exists, not_and]
  · intro fuel repo fc
    exact (add_runInv fuel m u repo id fc).2.2.1

/-- C3 witness: in the concrete two-component installation of "sodium"
(which pulls in "lithium"), the persisted ids are pairwise distinct. -/
theorem pending_dependency_partition_witness :
    ((savedComponents
        (add_component_from_modrinth 2 wReg wUser wRepoFresh "sodium"
          none).2.2).map Component.id).Nodup :=
  (pending_dependency_partition wReg wUser "sodium" [] wVersionA).2 2
    wRepoFresh none

theorem resolvedCategory_forced (c : Category) (v : Version)
    (cat : Category) (h : resolvedCategory (some c) v = some cat) :
    cat = c := by
  unfold resolvedCategory at h
  cases hh : v.project_types.head? with
  | none =>
    rw [hh] at h
    simp at h
  | some t =>
    rw [hh] at h
    simp at h
    exact h.symm

theorem resolvePending_savesCategory
    (recurse : LocalRepository → String → RunResult) (c : Category)
    (hrec : ∀ r i, ∀ comp ∈ savedComponents (recurse r i).2.2,
      comp.category = c)
    (pending : List Dependency) :
    ∀ repo : LocalRepository,
      ∀ comp ∈ savedComponents (resolvePending recurse repo pending).2.2,
        comp.category = c := by
  induction pending with
  | nil =>
    intro repo comp hmem
    simp [resolvePending, savedComponents] at hmem
  | cons d rest ih =>
    intro repo comp hmem
    cases hres : (recurse repo d.project_id).1 with
    | error e =>
      simp only [resolvePending, hres] at hmem
      exact hrec repo d.project_id comp hmem
    | ok u2 =>
      simp only [resolvePending, hres] at hmem
      rw [savedComponents_append] at hmem
      rcases List.mem_append.mp hmem with h | h
      · exact hrec repo d.project_id comp h
      · exact ih _ comp h

theorem processVersion_savesCategory (m : ModrinthRepository)
    (u : UserChoices) (recurse : LocalRepository → String → RunResult)
    (c : Category)
    (hrec : ∀ r i, ∀ comp ∈ savedComponents (recurse r i).2.2,
      comp.category = c)
    (repo : LocalRepository) (id : String) (v : Version) :
    ∀ comp ∈ savedComponents
        (processVersion m u recurse repo id (some c) v).2.2,
      comp.category = c := by
  intro comp hmem
  unfold processVersion at hmem
  split at hmem
  · rw [savedComponents_resolutionEvents] at hmem
    simp at hmem
  · split at hmem
    · rw [savedComponents_resolutionEvents] at hmem
      simp at hmem
    · next category hcat =>
      rw [savedComponents_append, savedComponents_resolutionEvents,
        savedComponents_save_cons] at hmem
      rcases List.mem_cons.mp (by simpa using hmem) with rfl | h
      · exact resolvedCategory_forced c v category hcat
      · exact resolvePending_savesCategory recurse c hrec _ _ comp h

theorem add_savesCategory (fuel : Nat) (m : ModrinthRepository)
    (u : UserChoices) (repo : LocalRepository) (id : String)
    (c : Category) :
    ∀ comp ∈ savedComponents
        (add_component_from_modrinth fuel m u repo id (some c)).2.2,
      comp.category = c := by
  induction fuel generalizing repo id with
  | zero =>
    intro comp hmem
    by_cases hcond :
        repo.components.any (fun component => component.id = Id.from id)
          = true
    · obtain ⟨cc, hcm, hcid⟩ := List.any_eq_true.mp hcond
      rw [add_installed_noop 0 m u repo id (some c)
        (List.mem_map.mpr ⟨cc, hcm, by simpa using hcid⟩)] at hmem
      simp [savedComponents] at hmem
    · rw [add_zero_fuel m u repo id (some c) (by simpa using hcond)]
        at hmem
      simp [savedComponents] at hmem
  | succ fuel2 ih =>
    intro comp hmem
    by_cases hcond :
        repo.components.any (fun component => component.id = Id.from id)
          = true
    · obtain ⟨cc, hcm, hcid⟩ := List.any_eq_true.mp hcond
      rw [add_installed_noop (fuel2 + 1) m u repo id (some c)
        (List.mem_map.mpr ⟨cc, hcm, by simpa using hcid⟩)] at hmem
      simp [savedComponents] at hmem
    · have hni :
          repo.components.any (fun component => component.id = Id.from id)
            = false := by
        simpa using hcond
      cases hfv : m.fetch_versions id with
      | none =>
        rw [add_fetch_failed fuel2 m u repo id (some c) hni hfv] at hmem
        simp [savedComponents] at hmem
      | some fetched =>
        cases hvs : compatibleVersions fetched repo.pack_instance with
        | nil =>
          rw [add_no_compatible fuel2 m u repo id (some c) fetched hni hfv
            hvs] at hmem
          simp [savedComponents] at hmem
        | cons first rest =>
          rw [add_main_step fuel2 m u repo id (some c) fetched first rest
            hni hfv hvs] at hmem
          exact processVersion_savesCategory m u _ c
            (fun r i => ih r i) repo id _ comp (by simpa using hmem)

/-- C4: under `forced_category = some c` every component persisted
anywhere in the invocation tree (the requested one and all transitive
dependencies, which receive the same override) has category `c`; with
no forced category, the resolved category is the selected version's
first declared project type. -/
theorem forced_category_inheritance :
    (∀ (fuel : Nat) (m : ModrinthRepository) (u : UserChoices)
        (repo : LocalRepository) (id : String) (c : Category),
      ∀ comp ∈ savedComponents
          (add_component_from_modrinth fuel m u repo id (some c)).2.2,
        comp.category = c)
    ∧ ∀ v : Version, resolvedCategory none v = v.project_types.head? := by
  constructor
  · exact fun fuel m u repo id c => add_savesCategory fuel m u repo id c
  · intro v
    unfold resolvedCategory
    cases hh : v.project_types.head? <;> simp

/-- C4 witness: forcing category Datapack on the concrete "sodium"
installation gives the persisted sodium component category Datapack
(its registry project type is Mod). -/
theorem forced_category_inheritance_witness :
    (builtComponent "sodium" wVersionA Category.Datapack wFileA).category
      = Category.Datapack :=
  forced_category_inheritance.1 2 wReg wUser wRepoFresh "sodium"
    Category.Datapack
    (builtComponent "sodium" wVersionA Category.Datapack wFileA)
    (by decide)

theorem resolvedCategory_update_deps (fc : Option Category) (v : Version)
    (x : List Dependency) :
    resolvedCategory fc { v with dependencies := x } =
      resolvedCategory fc v := rfl

theorem builtComponent_update_deps (id : String) (v : Version)
    (x : List Dependency) (cat : Category) (f : File) :
    builtComponent id { v with dependencies := x } cat f =
      builtComponent id v cat f := rfl

/-- C6: a declared dependency whose secondary project lookup fails is
dropped: the run on a selected version containing it is
indistinguishable — same result, same final repository, same persisted
components — from the run on the same version with that dependency
deleted; in particular the failure is not fatal and the remaining
dependencies and the requested component proceed normally. -/
theorem failed_dependency_dropped (m : ModrinthRepository)
    (u : UserChoices) (recurse : LocalRepository → String → RunResult)
    (repo : LocalRepository) (id : String) (fc : Option Category)
    (v : Version) (d : Dependency) (l1 l2 : List Dependency)
    (hdeps : v.dependencies = l1 ++ d :: l2)
    (hfail : m.fetch_project d.project_id = none) :
    (processVersion m u recurse repo id fc v).1 =
      (processVersion m u recurse repo id fc
        { v with dependencies := l1 ++ l2 }).1
    ∧ (processVersion m u recurse repo id fc v).2.1 =
      (processVersion m u recurse repo id fc
        { v with dependencies := l1 ++ l2 }).2.1
    ∧ savedComponents (processVersion m u recurse repo id fc v).2.2 =
      savedComponents
        (processVersion m u recurse repo id fc
          { v with dependencies := l1 ++ l2 }).2.2 := by
  have hR : resolveDependencyNames m v.dependencies =
      resolveDependencyNames m (l1 ++ l2) := by
    rw [hdeps]
    simp [resolveDependencyNames, List.filterMap_append, hfail]
  have hPend : pendingDependencies m u id repo.components v =
      pendingDependencies m u id repo.components
        { v with dependencies := l1 ++ l2 } := by
    unfold pendingDependencies
    dsimp only
    rw [hR]
  unfold processVersion
  dsimp only
  rw [← hPend, resolvedCategory_update_deps fc v (l1 ++ l2)]
  simp only [builtComponent_update_deps]
  cases hf : v.files.head? with
  | none =>
    exact ⟨rfl, rfl, by
      rw [savedComponents_resolutionEvents, savedComponents_resolutionEvents]⟩
  | some first_file =>
    cases hcat : resolvedCategory fc v with
    | none =>
      exact ⟨rfl, rfl, by
        rw [savedComponents_resolutionEvents,
          savedComponents_resolutionEvents]⟩
    | some category =>
      refine ⟨rfl, rfl, ?_⟩
      rw [savedComponents_append, savedComponents_append,
        savedComponents_resolutionEvents, savedComponents_resolutionEvents]

/-- Witness fixture: a dependency whose project id "pBad" is unknown to
the witness registry (its lookup fails). -/
def wDepBad : Dependency :=
  ⟨"pBad", none, none, Requirement.Required, none, none⟩

/-- Witness fixture: a version whose only declared dependency has a
failing project lookup. -/
def wVersionC : Version :=
  ⟨"vC", "Clumps 1.0", [Category.Mod], ["1.20.1"], [Loader.Fabric], 4,
    none, [wFileB], [wDepBad]⟩

/-- C6 witness: the concrete run on `wVersionC` equals the run on the
same version with the failing dependency deleted — same result, same
final repository, same persisted components. -/
theorem failed_dependency_dropped_witness :
    (processVersion wReg wUser
        (fun r i => add_component_from_modrinth 1 wReg wUser r i none)
        wRepoFresh "clumps" none wVersionC).1 =
      (processVersion wReg wUser
        (fun r i => add_component_from_modrinth 1 wReg wUser r i none)
        wRepoFresh "clumps" none
        { wVersionC with dependencies := [] ++ [] }).1
    ∧ (processVersion wReg wUser
        (fun r i => add_component_from_modrinth 1 wReg wUser r i none)
        wRepoFresh "clumps" none wVersionC).2.1 =
      (processVersion wReg wUser
        (fun r i => add_component_from_modrinth 1 wReg wUser r i none)
        wRepoFresh "clumps" none
        { wVersionC with dependencies := [] ++ [] }).2.1 :=
  ⟨(failed_dependency_dropped wReg wUser
      (fun r i => add_component_from_modrinth 1 wReg wUser r i none)
      wRepoFresh "clumps" none wVersionC wDepBad [] [] rfl (by decide)).1,
    (failed_dependency_dropped wReg wUser
      (fun r i => add_component_from_modrinth 1 wReg wUser r i none)
      wRepoFresh "clumps" none wVersionC wDepBad [] [] rfl (by decide)).2.1⟩

theorem dependencyResolutionEvents_length (ds : List Dependency) :
    (dependencyResolutionEvents ds).length = ds.length := by
  simp [dependencyResolutionEvents]

theorem savedComponents_fetch_cons (id : String) (tr : List Event) :
    savedComponents (Event.fetchVersions id :: tr) = savedComponents tr :=
  rfl

theorem processVersion_main_step (m : ModrinthRepository)
    (u : UserChoices) (recurse : LocalRepository → String → RunResult)
    (repo : LocalRepository) (id : String) (fc : Option Category)
    (v : Version) (first_file : File) (category : Category)
    (hfile : v.files.head? = some first_file)
    (hcat : resolvedCategory fc v = some category) :
    processVersion m u recurse repo id fc v =
      ((resolvePending recurse
          (repo.save_component (builtComponent id v category first_file))
          (pendingDependencies m u id repo.components v)).1,
        (resolvePending recurse
          (repo.save_component (builtComponent id v category first_file))
          (pendingDependencies m u id repo.components v)).2.1,
        dependencyResolutionEvents v.dependencies ++
          Event.save (builtComponent id v category first_file) ::
            (resolvePending recurse
              (repo.save_component
                (builtComponent id v category first_file))
              (pendingDependencies m u id repo.components v)).2.2) := by
  unfold processVersion
  rw [hfile, hcat]

/-- C8: in every call that reaches the persistence step (id not
installed, fetch succeeded, a compatible candidate selected, a file and
a category resolved), the trace starts with the registry fetches and
then — before any other event, in particular before any dependency
recursion — the save of the requested component; and the requested id
is installed in the final state regardless of how dependency resolution
ends. -/
theorem persist_before_dependency_recursion (fuel : Nat)
    (m : ModrinthRepository) (u : UserChoices) (repo : LocalRepository)
    (id : String) (fc : Option Category) (fetched : List Version)
    (first : Version) (rest : List Version) (selected : Version)
    (first_file : File) (category : Category)
    (hni : repo.components.any (fun component => component.id = Id.from id)
      = false)
    (hfv : m.fetch_versions id = some fetched)
    (hvs : compatibleVersions fetched repo.pack_instance = first :: rest)
    (hsel : selected =
      (first :: rest).getD (u.pick_version id % (rest.length + 1)) first)
    (hfile : selected.files.head? = some first_file)
    (hcat : resolvedCategory fc selected = some category) :
    ((add_component_from_modrinth (fuel + 1) m u repo id fc).2.2).take
        (selected.dependencies.length + 1) =
      Event.fetchVersions id ::
        dependencyResolutionEvents selected.dependencies
    ∧ savedComponents
        (((add_component_from_modrinth (fuel + 1) m u repo id
          fc).2.2).take (selected.dependencies.length + 1)) = []
    ∧ (((add_component_from_modrinth (fuel + 1) m u repo id fc).2.2).drop
          (selected.dependencies.length + 1)).head? =
        some (Event.save (builtComponent id selected category first_file))
    ∧ Id.from id ∈
        installedIds
          (add_component_from_modrinth (fuel + 1) m u repo id fc).2.1 := by
  subst hsel
  rw [add_main_step fuel m u repo id fc fetched first rest hni hfv hvs]
  rw [processVersion_main_step m u
    (fun r i => add_component_from_modrinth fuel m u r i fc) repo id fc _
    first_file category hfile hcat]
  dsimp only
  have htake :
      (Event.fetchVersions id ::
          (dependencyResolutionEvents
              ((first :: rest).getD (u.pick_version id % (rest.length + 1))
                first).dependencies ++
            Event.save
                (builtComponent id
                  ((first :: rest).getD
                    (u.pick_version id % (rest.length + 1)) first)
                  category first_file) ::
              (resolvePending
                (fun r i => add_component_from_modrinth fuel m u r i fc)
                (repo.save_component
                  (builtComponent id
                    ((first :: rest).getD
                      (u.pick_version id % (rest.length + 1)) first)
                    category first_file))
                (pendingDependencies m u id repo.components
                  ((first :: rest).getD
                    (u.pick_version id % (rest.length + 1))
                    first))).2.2)).take
        (((first :: rest).getD (u.pick_version id % (rest.length + 1))
            first).dependencies.length + 1) =
      Event.fetchVersions id ::
        dependencyResolutionEvents
          ((first :: rest).getD (u.pick_version id % (rest.length + 1))
            first).dependencies := by
    rw [List.take_succ_cons,
      ← dependencyResolutionEvents_length
        ((first :: rest).getD (u.pick_version id % (rest.length + 1))
          first).dependencies,
      List.take_left]
  refine ⟨htake, ?_, ?_, ?_⟩
  · rw [htake, savedComponents_fetch_cons, savedComponents_resolutionEvents]
  · rw [List.drop_succ_cons,
      ← dependencyResolutionEvents_length
        ((first :: rest).getD (u.pick_version id % (rest.length + 1))
          first).dependencies,
      List.drop_left]
    rfl
  · obtain ⟨hip, hc, hn, hfr⟩ :=
      resolvePending_runInv
        (fun r i => add_component_from_modrinth fuel m u r i fc)
        (fun r i => add_runInv fuel m u r i fc)
        (pendingDependencies m u id repo.components
          ((first :: rest).getD (u.pick_version id % (rest.length + 1))
            first))
        (repo.save_component
          (builtComponent id
            ((first :: rest).getD (u.pick_version id % (rest.length + 1))
              first)
            category first_file))
    rw [installedIds, hc]
    refine List.mem_map.mpr
      ⟨builtComponent id
          ((first :: rest).getD (u.pick_version id % (rest.length + 1))
            first)
          category first_file, ?_, rfl⟩
    rw [LocalRepository.save_component]
    exact List.mem_append_left _
      (List.mem_append_right _ (List.mem_singleton_self _))

/-- C8 witness: in the concrete "sodium" installation the trace opens
with the fetch events followed immediately by the save of the sodium
component, and sodium is installed in the final state. -/
theorem persist_before_dependency_recursion_witness :
    ((add_component_from_modrinth 2 wReg wUser wRepoFresh "sodium"
          none).2.2).take (wVersionA.dependencies.length + 1) =
      Event.fetchVersions "sodium" ::
        dependencyResolutionEvents wVersionA.dependencies
    ∧ Id.from "sodium" ∈
        installedIds
          (add_component_from_modrinth 2 wReg wUser wRepoFresh "sodium"
            none).2.1 :=
  ⟨(persist_before_dependency_recursion 1 wReg wUser wRepoFresh "sodium"
      none [wVersionA] wVersionA [] wVersionA wFileA Category.Mod
      (by decide) (by decide) (by decide) (by decide) (by decide)
      (by decide)).1,
    (persist_before_dependency_recursion 1 wReg wUser wRepoFresh "sodium"
      none [wVersionA] wVersionA [] wVersionA wFileA Category.Mod
      (by decide) (by decide) (by decide) (by decide) (by decide)
      (by decide)).2.2.2⟩

end Invar
